import Mathlib

/-
Verification of the ODT edit-and-repack program (complete_example.py).

The program unpacks an OpenDocument container (a zip archive), edits the
XML member content.xml through an ElementTree wrapper (Helper), writes it
back, and repacks the scratch directory into a new container with the
mimetype member first, stored uncompressed.

The embedding below mirrors the source:
 - the archive side models zip entries, extraction to a file tree, and the
   repack loop (including its basename filter on the name mimetype);
 - the XML side models ElementTree elements as an arena of nodes indexed
   by natural-number identities, the static child-to-parent map built in
   Helper.__init__, the populate_bookmark method, and the inline paragraph
   insertion done in main;
 - Python exceptions are modelled with an explicit error type, one
   constructor per failure mode of the run.
-/

set_option autoImplicit false

namespace Odt

/-- Failure modes of the run, one per distinct exception surfaced by the
source: archive read/write failures, XML parse failure, and the KeyError,
NameError and IndexError raised by the editing phase. -/
inductive Err where
  | archiveRead
  | archiveWrite
  | malformedXml
  | markerNotFound
  | orphanMarker
  | missingSibling
  | orphanNode
  | ioError
deriving DecidableEq

/-- One member of a zip container: its archive-internal name, its bytes
(abstracted as a string), its compression flag (true for deflated), and the
extra header field bytes. -/
structure ZEntry where
  name : String
  data : String
  compressed : Bool
  extra : String
deriving DecidableEq

/-- A file tree extracted from a container: each file is a path given as a
list of components relative to the scratch directory root, with its bytes. -/
abbrev Files := List (List String × String)

/-- Split a list of characters on the forward slash, mirroring how a zip
member name denotes a relative path. -/
def splitChars : List Char → List (List Char)
  | [] => [[]]
  | c :: rest =>
    let r := splitChars rest
    if c = '/' then [] :: r
    else
      match r with
      | [] => [[c]]
      | g :: gs => (c :: g) :: gs

/-- Path components of a zip member name. -/
def splitPath (s : String) : List String :=
  (splitChars s.toList).map (fun g => String.mk g)

/-- Join path components with forward slashes, mirroring the archive-internal
name computed from a path relative to the scratch directory. -/
def joinChars : List String → List Char
  | [] => []
  | [p] => p.toList
  | p :: ps => p.toList ++ '/' :: joinChars ps

/-- The archive-internal name of a relative path. -/
def joinPath (ps : List String) : String :=
  String.mk (joinChars ps)

/-- The base name (final component) of a relative path; this is what the
repack loop compares against the string mimetype. -/
def baseName (p : List String) : String :=
  p.getLastD ""

/-- Extraction of every member of a container into the scratch directory,
as done by ZipFile.extractall: each member name becomes a relative path. -/
def unpack (c : List ZEntry) : Files :=
  c.map (fun e => (splitPath e.name, e.data))

/-- Reading one file of the scratch directory by its relative path. -/
def lookupFile (files : Files) (p : List String) : Option String :=
  (files.find? (fun f => f.1 == p)).map (fun f => f.2)

/-- The repack step of main: writes the root mimetype file first as a stored
entry with no extra header field, then walks the tree and writes every file
whose base name is not mimetype as a deflated entry under its relative path
joined with forward slashes.  A missing root mimetype file makes the write
fail. -/
def repack (files : Files) : Except Err (List ZEntry) :=
  match lookupFile files ["mimetype"] with
  | none => .error .archiveWrite
  | some m =>
    .ok ({ name := "mimetype", data := m, compressed := false, extra := "" } ::
      (files.filter (fun f => !(baseName f.1 == "mimetype"))).map
        (fun f => { name := joinPath f.1, data := f.2, compressed := true, extra := "" }))

/-- An ElementTree element: qualified tag (namespace-expanded by the parser
for parsed nodes), attribute mapping, direct text, tail text, and the
ordered identities of its children.  Node identities are indices into the
arena of the owning Helper. -/
structure Node where
  tag : String
  attrib : List (String × String)
  text : Option String
  tail : Option String
  children : List Nat
deriving DecidableEq

/-- The Helper object: the parsed tree as an arena of nodes (identity =
index), the identity of the root element, and the static child-to-parent
map built once in Helper.__init__ and never updated afterward. -/
structure Helper where
  arena : List Node
  rootId : Nat
  parentMap : List (Nat × Nat)
deriving DecidableEq

/-- The namespace-expanded tag the parser gives a text:bookmark-start
element. -/
def bookmarkStartTag : String :=
  "\x7burn:oasis:names:tc:opendocument:xmlns:text:1.0\x7dbookmark-start"

/-- The namespace-expanded attribute key the parser gives text:name. -/
def nameAttr : String :=
  "\x7burn:oasis:names:tc:opendocument:xmlns:text:1.0\x7dname"

/-- The namespace-expanded tag a parsed text:span element carries. -/
def spanQualifiedTag : String :=
  "\x7burn:oasis:names:tc:opendocument:xmlns:text:1.0\x7dspan"

/-- The namespace-expanded tag a parsed text:p element carries. -/
def pQualifiedTag : String :=
  "\x7burn:oasis:names:tc:opendocument:xmlns:text:1.0\x7dp"

/-- Lookup in an element's attribute mapping. -/
def attrLookup (a : List (String × String)) (k : String) : Option String :=
  (a.find? (fun kv => kv.1 == k)).map (fun kv => kv.2)

/-- The predicate matched by the XPath query
.//text:bookmark-start[@text:name="name"] on a single element. -/
def isBookmarkStart (name : String) (n : Node) : Bool :=
  n.tag == bookmarkStartTag && attrLookup n.attrib nameAttr == some name

/-- Fuelled depth-first pre-order search over a list of sibling identities
and their descendants, returning the identity of the first element whose
node satisfies the predicate.  This models Element.find with an XPath
descendant query; the fuel only bounds the traversal and is chosen large
enough at every call site. -/
def dfs (arena : List Node) (p : Node → Bool) : Nat → List Nat → Option Nat
  | 0, _ => none
  | _, [] => none
  | fuel + 1, x :: rest =>
    match arena[x]? with
    | none => dfs arena p fuel rest
    | some n =>
      if p n then some x
      else
        match dfs arena p fuel n.children with
        | some r => some r
        | none => dfs arena p fuel rest

/-- self.root.find with the bookmark-start-by-name query: a depth-first
pre-order search of the root's descendants. -/
def findBookmarkStart (st : Helper) (name : String) : Option Nat :=
  match st.arena[st.rootId]? with
  | none => none
  | some r =>
    dfs st.arena (isBookmarkStart name) (st.arena.length * st.arena.length + 1) r.children

/-- The child-to-parent pairs contributed by the nodes of the arena from
index k on: for each node at index p and each of its children c, the pair
(c, p). -/
def buildParentMapFrom : Nat → List Node → List (Nat × Nat)
  | _, [] => []
  | p, n :: rest => n.children.map (fun c => (c, p)) ++ buildParentMapFrom (p + 1) rest

/-- The static child-to-parent map of Helper.__init__, built by visiting
every node of the just-parsed tree and recording each direct child's
parent. -/
def buildParentMap (arena : List Node) : List (Nat × Nat) :=
  buildParentMapFrom 0 arena

/-- parent_map[node]: lookup of a node identity in the child-to-parent
map. -/
def lookupParent (m : List (Nat × Nat)) (c : Nat) : Option Nat :=
  (m.find? (fun e => e.1 == c)).map (fun e => e.2)

/-- The enumerate-and-break scan of the source: iterates a child list and
stops at the first child identical to the target, yielding its index.  As
in Python, when no child matches, the loop variable is left at the last
index; when the list is empty the loop variable is unbound (modelled as
none, surfacing as a NameError in the source). -/
def breakIdx (target : Nat) : Nat → List Nat → Option Nat
  | _, [] => none
  | k, c :: rest =>
    if c == target then some k
    else
      match rest with
      | [] => some k
      | _ :: _ => breakIdx target (k + 1) rest

/-- Helper.populate_bookmark: finds the bookmark-start element named name,
looks up its parent in the static parent map, scans the parent's children
for the marker, takes the next sibling, and mutates that sibling in place:
its tag becomes the literal string text:span and its text becomes contents.
Each failing lookup models the exception the source raises there. -/
def populate_bookmark (st : Helper) (name contents : String) : Except Err Helper :=
  match findBookmarkStart st name with
  | none => .error .markerNotFound
  | some bs =>
    match lookupParent st.parentMap bs with
    | none => .error .orphanMarker
    | some pid =>
      match st.arena[pid]? with
      | none => .error .orphanMarker
      | some pnode =>
        match breakIdx bs 0 pnode.children with
        | none => .error .missingSibling
        | some i =>
          match pnode.children[i + 1]? with
          | none => .error .missingSibling
          | some sid =>
            match st.arena[sid]? with
            | none => .error .missingSibling
            | some snode =>
              .ok { st with
                arena := st.arena.set sid
                  { snode with tag := "text:span", text := some contents } }

/-- Python list.insert: inserts before the given index, clamping an index
past the end to an append. -/
def pyInsert {α : Type} : Nat → α → List α → List α
  | 0, x, l => x :: l
  | _ + 1, x, [] => [x]
  | n + 1, x, a :: l => a :: pyInsert n x l

/-- The paragraph insertion done inline in main, abstracted over the
reference node, the attribute source mapping and the text, exactly as the
source performs it: a fresh element with literal tag text:p and a copy of
the source attribute mapping is created, the reference node's parent is
looked up in the static parent map, the parent's children are scanned for
the reference node, and the fresh element is inserted immediately after
it.  The fresh element's identity is the next free arena index. -/
def insertParagraphAfter (st : Helper) (refId : Nat) (srcAttrib : List (String × String))
    (txt : String) : Except Err Helper :=
  match lookupParent st.parentMap refId with
  | none => .error .orphanNode
  | some pid =>
    match st.arena[pid]? with
    | none => .error .orphanNode
    | some pnode =>
      match breakIdx refId 0 pnode.children with
      | none => .error .orphanNode
      | some i =>
        .ok { st with
          arena :=
            (st.arena.set pid
              { pnode with children := pyInsert (i + 1) st.arena.length pnode.children }) ++
            [{ tag := "text:p", attrib := srcAttrib, text := some txt, tail := none,
               children := [] }] }

/-- The insertion step of main: finds any bookmark-start element, takes its
parent as the paragraph to clone, and inserts a new paragraph carrying the
paragraph's attributes directly after it. -/
def insertStep (st : Helper) : Except Err Helper :=
  match st.arena[st.rootId]? with
  | none => .error .orphanNode
  | some r =>
    match dfs st.arena (fun n => n.tag == bookmarkStartTag)
        (st.arena.length * st.arena.length + 1) r.children with
    | none => .error .orphanNode
    | some bm =>
      match lookupParent st.parentMap bm with
      | none => .error .orphanNode
      | some pid =>
        match st.arena[pid]? with
        | none => .error .orphanNode
        | some pnode =>
          insertParagraphAfter st pid pnode.attrib "No one expects the Spanish Inquisition!"

/-- The edit phase of main: load content.xml from the scratch directory
(parsing abstracted as a function returning the arena and root on success),
build the static parent map, populate the two bookmarks, and insert the new
paragraph. -/
def editPhase (parse : String → Option (List Node × Nat)) (files : Files) :
    Except Err Helper :=
  match lookupFile files ["content.xml"] with
  | none => .error .malformedXml
  | some d =>
    match parse d with
    | none => .error .malformedXml
    | some (arena, rootId) =>
      let st0 : Helper :=
        { arena := arena, rootId := rootId, parentMap := buildParentMap arena }
      match populate_bookmark st0 "fox_type_placeholder" "quick brown" with
      | .error e => .error e
      | .ok st1 =>
        match populate_bookmark st1 "dog_type_placeholder" "lazy" with
        | .error e => .error e
        | .ok st2 => insertStep st2

/-- Writing one file of the scratch directory (create or overwrite). -/
def setFile (files : Files) (p : List String) (d : String) : Files :=
  if files.any (fun f => f.1 == p) then
    files.map (fun f => if f.1 == p then (p, d) else f)
  else
    files ++ [(p, d)]

/-- The serialize step of main: opens content.xml in the scratch directory
for writing and writes the current tree to it as bytes.  The rendering of
the in-memory tree to bytes is abstracted as a function that returns none
exactly when the open or the write fails, which surfaces as the io-error
failure mode. -/
def serializePhase (render : Helper → Option String) (st : Helper) (files : Files) :
    Except Err Files :=
  match render st with
  | none => .error .ioError
  | some d => .ok (setFile files ["content.xml"] d)

/-- The whole run of main: unpack the input container, run the edit phase,
serialize the tree back to content.xml, and repack the scratch directory
into the output container.  An error anywhere aborts the run, so an
erroring run produces no output container. -/
def mainRun (parse : String → Option (List Node × Nat)) (render : Helper → Option String)
    (input : List ZEntry) : Except Err (List ZEntry) :=
  match editPhase parse (unpack input) with
  | .error e => .error e
  | .ok st =>
    match serializePhase render st (unpack input) with
    | .error e => .error e
    | .ok files2 => repack files2

/-- find? over the extracted file tree reduces to find? over the container's
entries. -/
theorem find?_unpack (c : List ZEntry) (p : List String) :
    (unpack c).find? (fun f => f.1 == p) =
      (c.find? (fun e => splitPath e.name == p)).map (fun e => (splitPath e.name, e.data)) := by
  induction c with
  | nil => rfl
  | cons e rest ih =>
    simp only [unpack, List.map_cons, List.find?_cons] at *
    cases h : (splitPath e.name == p) <;> simp_all

/-- C1: for every repack of a source directory containing a root-level member
named mimetype, the output container's first entry is named mimetype, is
stored uncompressed, and carries no extra per-entry header fields. -/
theorem c1_mimetype_first_stored_uncompressed (files : Files) (m : String)
    (h : lookupFile files ["mimetype"] = some m) :
    ∃ rest, repack files =
      .ok ({ name := "mimetype", data := m, compressed := false, extra := "" } :: rest) := by
  refine ⟨(files.filter (fun f => !(baseName f.1 == "mimetype"))).map
    (fun f => { name := joinPath f.1, data := f.2, compressed := true, extra := "" }), ?_⟩
  unfold repack
  rw [h]

/-- C1 witness: a concrete source tree with a root mimetype member. -/
theorem c1_mimetype_first_stored_uncompressed_witness :
    ∃ rest, repack [(["mimetype"], "M"), (["content.xml"], "X")] =
      .ok ({ name := "mimetype", data := "M", compressed := false, extra := "" } :: rest) :=
  c1_mimetype_first_stored_uncompressed [(["mimetype"], "M"), (["content.xml"], "X")] "M" rfl

/-- C2 counterexample: a source tree holding a root mimetype and a nested
file sub/mimetype; the nested file is dropped from the repacked container
because the repack loop filters on the base name alone, refuting the claim
that every non-root-mimetype file appears whatever its base name. -/
theorem c2_counterexample :
    (["sub", "mimetype"], "D") ∈ ([(["mimetype"], "M"), (["sub", "mimetype"], "D")] : Files) ∧
      repack [(["mimetype"], "M"), (["sub", "mimetype"], "D")] =
        .ok [{ name := "mimetype", data := "M", compressed := false, extra := "" }] ∧
      ∀ f ∈ [{ name := "mimetype", data := "M", compressed := false, extra := "" }],
        ZEntry.name f ≠ "sub/mimetype" := by
  refine ⟨by decide, rfl, by decide⟩

/-- C2 (amended): every file of the source tree whose base name is not
mimetype appears after the first (mimetype) entry of the repacked
container, compressed, under its relative path joined with forward
slashes; files whose base name is mimetype are not written in that loop. -/
theorem c2_rest_compressed_after_mimetype (files : Files) (es : List ZEntry)
    (p : List String) (d : String)
    (hok : repack files = .ok es)
    (hmem : (p, d) ∈ files)
    (hbase : baseName p ≠ "mimetype") :
    es.head?.map ZEntry.name = some "mimetype" ∧
      { name := joinPath p, data := d, compressed := true, extra := "" } ∈ es.tail := by
  unfold repack at hok
  cases hlk : lookupFile files ["mimetype"] with
  | none => rw [hlk] at hok; cases hok
  | some m =>
    rw [hlk] at hok
    injection hok with hok
    subst hok
    refine ⟨rfl, ?_⟩
    refine List.mem_map.2 ⟨(p, d), List.mem_filter.2 ⟨hmem, ?_⟩, rfl⟩
    simp [hbase]

/-- C2 witness: a nested picture file is repacked compressed under its
forward-slash relative path, after the mimetype entry. -/
theorem c2_rest_compressed_after_mimetype_witness :
    ([{ name := "mimetype", data := "M", compressed := false, extra := "" },
      { name := "Pictures/img.png", data := "P", compressed := true, extra := "" }] :
        List ZEntry).head?.map ZEntry.name = some "mimetype" ∧
      { name := joinPath ["Pictures", "img.png"], data := "P", compressed := true,
        extra := "" } ∈
        ([{ name := "mimetype", data := "M", compressed := false, extra := "" },
          { name := "Pictures/img.png", data := "P", compressed := true, extra := "" }] :
            List ZEntry).tail :=
  c2_rest_compressed_after_mimetype
    [(["mimetype"], "M"), (["Pictures", "img.png"], "P")]
    [{ name := "mimetype", data := "M", compressed := false, extra := "" },
     { name := "Pictures/img.png", data := "P", compressed := true, extra := "" }]
    ["Pictures", "img.png"] "P" rfl (by decide) (by decide)

/-- C9: if any edit-phase operation of the run fails with any error — the
load or either bookmark population or the paragraph insertion (the edit
phase) or the serialization of the tree back to content.xml — the whole
run fails with that error: the run aborts before repacking and no output
container is produced. -/
theorem c9_edit_failure_aborts_run (parse : String → Option (List Node × Nat))
    (render : Helper → Option String) (input : List ZEntry) (e : Err)
    (h : editPhase parse (unpack input) = .error e ∨
      ∃ st, editPhase parse (unpack input) = .ok st ∧
        serializePhase render st (unpack input) = .error e) :
    mainRun parse render input = .error e := by
  rcases h with h | ⟨st, hok, hser⟩
  · unfold mainRun
    rw [h]
  · simp only [mainRun, hok, hser]

/-- C9 witness: a run whose edit phase succeeds on a document holding both
expected markers but whose write of content.xml fails aborts with the
io-error failure mode and produces no output container. -/
theorem c9_edit_failure_aborts_run_witness :
    mainRun
      (fun _ => some
        ([⟨"office:document-content", [], none, none, [1, 2]⟩,
          ⟨pQualifiedTag, [("style", "Standard")], none, none, [3, 4, 5]⟩,
          ⟨pQualifiedTag, [("style", "Standard")], none, none, [6, 7, 8]⟩,
          ⟨bookmarkStartTag, [(nameAttr, "fox_type_placeholder")], none, none, []⟩,
          ⟨"text:s", [], none, none, []⟩,
          ⟨"bookmark-end", [], none, none, []⟩,
          ⟨bookmarkStartTag, [(nameAttr, "dog_type_placeholder")], none, none, []⟩,
          ⟨"text:s", [], none, none, []⟩,
          ⟨"bookmark-end", [], none, none, []⟩], 0))
      (fun _ => none)
      [⟨"mimetype", "M", false, ""⟩, ⟨"content.xml", "X", true, ""⟩] =
      .error .ioError :=
  c9_edit_failure_aborts_run
    (fun _ => some
      ([⟨"office:document-content", [], none, none, [1, 2]⟩,
        ⟨pQualifiedTag, [("style", "Standard")], none, none, [3, 4, 5]⟩,
        ⟨pQualifiedTag, [("style", "Standard")], none, none, [6, 7, 8]⟩,
        ⟨bookmarkStartTag, [(nameAttr, "fox_type_placeholder")], none, none, []⟩,
        ⟨"text:s", [], none, none, []⟩,
        ⟨"bookmark-end", [], none, none, []⟩,
        ⟨bookmarkStartTag, [(nameAttr, "dog_type_placeholder")], none, none, []⟩,
        ⟨"text:s", [], none, none, []⟩,
        ⟨"bookmark-end", [], none, none, []⟩], 0))
    (fun _ => none)
    [⟨"mimetype", "M", false, ""⟩, ⟨"content.xml", "X", true, ""⟩]
    .ioError
    (Or.inr ⟨_, rfl, rfl⟩)

/-- C3 counterexample: a container whose first entry is a stored mimetype
and which also holds a member sub/mimetype.  Unpacking it and repacking
the unmodified extracted contents silently drops sub/mimetype (the repack
loop filters on base name), so the member set is not preserved. -/
theorem c3_counterexample :
    ({ name := "sub/mimetype", data := "D", compressed := true, extra := "" } : ZEntry) ∈
      ([{ name := "mimetype", data := "M", compressed := false, extra := "" },
        { name := "sub/mimetype", data := "D", compressed := true, extra := "" }] :
          List ZEntry) ∧
      repack (unpack
          [{ name := "mimetype", data := "M", compressed := false, extra := "" },
           { name := "sub/mimetype", data := "D", compressed := true, extra := "" }]) =
        .ok [{ name := "mimetype", data := "M", compressed := false, extra := "" }] ∧
      ∀ f ∈ [{ name := "mimetype", data := "M", compressed := false, extra := "" }],
        ZEntry.name f ≠ "sub/mimetype" := by
  refine ⟨by decide, rfl, by decide⟩

/-- C3 (amended): for every container whose member names are distinct,
parse back from their archive form, include a root mimetype member, and in
which no member other than the root mimetype has base name mimetype,
unpacking and repacking the unmodified contents yields a container whose
first entry is the mimetype member stored uncompressed, and whose member
set carries the same names with the same bytes in both directions. -/
theorem c3_roundtrip_unpack_repack (c : List ZEntry)
    (hnd : (c.map ZEntry.name).Nodup)
    (hsj : ∀ e ∈ c, joinPath (splitPath e.name) = e.name)
    (hmt : ∃ e ∈ c, e.name = "mimetype")
    (hnb : ∀ e ∈ c, e.name ≠ "mimetype" → baseName (splitPath e.name) ≠ "mimetype") :
    ∃ m es, repack (unpack c) = .ok es ∧
      es.head? = some { name := "mimetype", data := m, compressed := false, extra := "" } ∧
      (∃ e ∈ c, e.name = "mimetype" ∧ e.data = m) ∧
      (∀ e ∈ c, ∃ f ∈ es, ZEntry.name f = e.name ∧ ZEntry.data f = e.data) ∧
      (∀ f ∈ es, ∃ e ∈ c, e.name = ZEntry.name f ∧ e.data = ZEntry.data f) := by
  obtain ⟨e0, he0, hn0⟩ := hmt
  have hsome : (c.find? (fun e => splitPath e.name == ["mimetype"])).isSome := by
    rw [List.find?_isSome]
    refine ⟨e0, he0, ?_⟩
    rw [hn0]
    decide
  obtain ⟨e1, hfind⟩ := Option.isSome_iff_exists.1 hsome
  have he1mem : e1 ∈ c := List.mem_of_find?_eq_some hfind
  have hp1 : splitPath e1.name = ["mimetype"] := by
    have h := List.find?_some hfind
    simpa using h
  have hn1 : e1.name = "mimetype" := by
    have h := hsj e1 he1mem
    rw [hp1] at h
    exact h.symm
  have hlk : lookupFile (unpack c) ["mimetype"] = some e1.data := by
    unfold lookupFile
    rw [find?_unpack, hfind]
    rfl
  have hrepack : repack (unpack c) =
      .ok ({ name := "mimetype", data := e1.data, compressed := false, extra := "" } ::
        ((unpack c).filter (fun f => !(baseName f.1 == "mimetype"))).map
          (fun f => { name := joinPath f.1, data := f.2, compressed := true, extra := "" })) := by
    unfold repack
    rw [hlk]
  refine ⟨e1.data, _, hrepack, rfl, ⟨e1, he1mem, hn1, rfl⟩, ?_, ?_⟩
  · intro e he
    by_cases hn : e.name = "mimetype"
    · have hee1 : e = e1 := by
        refine List.inj_on_of_nodup_map hnd he he1mem ?_
        rw [hn, hn1]
      refine ⟨{ name := "mimetype", data := e1.data, compressed := false, extra := "" },
        List.mem_cons_self _ _, hn.symm, ?_⟩
      rw [hee1]
    · refine ⟨{ name := e.name, data := e.data, compressed := true, extra := "" },
        ?_, rfl, rfl⟩
      apply List.mem_cons_of_mem
      refine List.mem_map.2 ⟨(splitPath e.name, e.data), List.mem_filter.2 ⟨?_, ?_⟩, ?_⟩
      · exact List.mem_map.2 ⟨e, he, rfl⟩
      · simp [hnb e he hn]
      · simp [hsj e he]
  · intro f hf
    rcases List.mem_cons.1 hf with hf | hf
    · refine ⟨e1, he1mem, ?_, ?_⟩
      · rw [hf, hn1]
      · rw [hf]
    · obtain ⟨pd, hmemf, hfeq⟩ := List.mem_map.1 hf
      obtain ⟨e, he, heq⟩ := List.mem_map.1 (List.mem_filter.1 hmemf).1
      refine ⟨e, he, ?_, ?_⟩
      · rw [← hfeq, ← heq]
        exact (hsj e he).symm
      · rw [← hfeq, ← heq]

/-- C3 witness: a two-member container round-trips with its member set and
bytes preserved and the mimetype entry first, stored uncompressed. -/
theorem c3_roundtrip_unpack_repack_witness :
    ∃ m es, repack (unpack
        [{ name := "mimetype", data := "M", compressed := false, extra := "" },
         { name := "content.xml", data := "X", compressed := true, extra := "" }]) = .ok es ∧
      es.head? = some { name := "mimetype", data := m, compressed := false, extra := "" } ∧
      (∃ e ∈ ([{ name := "mimetype", data := "M", compressed := false, extra := "" },
          { name := "content.xml", data := "X", compressed := true, extra := "" }] :
            List ZEntry), e.name = "mimetype" ∧ e.data = m) ∧
      (∀ e ∈ ([{ name := "mimetype", data := "M", compressed := false, extra := "" },
          { name := "content.xml", data := "X", compressed := true, extra := "" }] :
            List ZEntry), ∃ f ∈ es, ZEntry.name f = e.name ∧ ZEntry.data f = e.data) ∧
      (∀ f ∈ es, ∃ e ∈ ([{ name := "mimetype", data := "M", compressed := false, extra := "" },
          { name := "content.xml", data := "X", compressed := true, extra := "" }] :
            List ZEntry), e.name = ZEntry.name f ∧ e.data = ZEntry.data f) :=
  c3_roundtrip_unpack_repack
    [{ name := "mimetype", data := "M", compressed := false, extra := "" },
     { name := "content.xml", data := "X", compressed := true, extra := "" }]
    (by decide) (by decide) (by decide) (by decide)

/-- Any identity returned by the depth-first search points at a node of the
arena satisfying the predicate. -/
theorem dfs_some (arena : List Node) (p : Node → Bool) :
    ∀ fuel ids i, dfs arena p fuel ids = some i → ∃ n, arena[i]? = some n ∧ p n = true := by
  intro fuel
  induction fuel with
  | zero =>
    intro ids i h
    simp [dfs] at h
  | succ fuel ih =>
    intro ids i h
    match ids with
    | [] => simp [dfs] at h
    | x :: rest =>
      rw [dfs] at h
      cases hx : arena[x]? with
      | none =>
        simp only [hx] at h
        exact ih rest i h
      | some n =>
        simp only [hx] at h
        by_cases hp : p n
        · rw [if_pos hp] at h
          injection h with h
          subst h
          exact ⟨n, hx, hp⟩
        · rw [if_neg hp] at h
          cases hrec : dfs arena p fuel n.children with
          | none =>
            simp only [hrec] at h
            exact ih rest i h
          | some r =>
            simp only [hrec] at h
            injection h with h
            subst h
            exact ih n.children r hrec

/-- When the happy-path lookups of populate_bookmark succeed, the call
returns the state whose arena differs only in the next sibling, retagged to
the literal text:span with its text set to the contents. -/
theorem populate_ok_spec (st : Helper) (x contents : String) (bs pid i sid : Nat)
    (pnode snode : Node)
    (hfind : findBookmarkStart st x = some bs)
    (hpar : lookupParent st.parentMap bs = some pid)
    (hpn : st.arena[pid]? = some pnode)
    (hidx : breakIdx bs 0 pnode.children = some i)
    (hsib : pnode.children[i + 1]? = some sid)
    (hsn : st.arena[sid]? = some snode) :
    populate_bookmark st x contents =
      .ok { st with
        arena := st.arena.set sid { snode with tag := "text:span", text := some contents } } := by
  simp only [populate_bookmark, hfind, hpar, hpn, hidx, hsib, hsn]

/-- When the happy-path lookups of the paragraph insertion succeed, the
call returns the state whose arena has the parent's child list extended
with the fresh identity right after the reference node, and the fresh
text:p node appended. -/
theorem insert_ok_spec (st : Helper) (refId : Nat) (src : List (String × String))
    (txt : String) (pid i : Nat) (pnode : Node)
    (hpar : lookupParent st.parentMap refId = some pid)
    (hpn : st.arena[pid]? = some pnode)
    (hidx : breakIdx refId 0 pnode.children = some i) :
    insertParagraphAfter st refId src txt =
      .ok { st with arena :=
        (st.arena.set pid
          { pnode with children := pyInsert (i + 1) st.arena.length pnode.children }) ++
        [{ tag := "text:p", attrib := src, text := some txt, tail := none,
           children := [] }] } := by
  simp only [insertParagraphAfter, hpar, hpn, hidx]

/-- Python list.insert at an index within the list splits it there. -/
theorem pyInsert_eq_take_drop {α : Type} (x : α) :
    ∀ (n : Nat) (l : List α), n ≤ l.length → pyInsert n x l = l.take n ++ x :: l.drop n := by
  intro n
  induction n with
  | zero => intro l _; rfl
  | succ n ih =>
    intro l hl
    cases l with
    | nil => simp at hl
    | cons a l =>
      simp only [pyInsert, List.take_succ_cons, List.drop_succ_cons, List.cons_append,
        List.cons.injEq, true_and]
      exact ih l (Nat.le_of_succ_le_succ hl)

/-- The enumerate-and-break scan stops at the final position when the
target occurs only as the last child. -/
theorem breakIdx_last (bs : Nat) (cs : List Nat) (hnotin : bs ∉ cs) :
    ∀ k, breakIdx bs k (cs ++ [bs]) = some (k + cs.length) := by
  induction cs with
  | nil =>
    intro k
    simp [breakIdx]
  | cons c cs ih =>
    intro k
    have hc : (c == bs) = false := by
      simp only [beq_eq_false_iff_ne, ne_eq]
      intro h
      exact hnotin (h ▸ List.mem_cons_self c cs)
    cases cs with
    | nil => simp [breakIdx, hc]
    | cons c2 cs2 =>
      have hrec := ih (fun h => hnotin (List.mem_cons_of_mem c h)) (k + 1)
      rw [List.cons_append, breakIdx.eq_def]
      simp only [hc, Bool.false_eq_true, if_false]
      show breakIdx bs (k + 1) ((c2 :: cs2) ++ [bs]) = some (k + (c :: c2 :: cs2).length)
      rw [hrec]
      congr 1
      simp only [List.length_cons]
      omega

/-- Membership in the parent pairs contributed from index k on. -/
theorem mem_buildParentMapFrom (c p : Nat) :
    ∀ (arena : List Node) (k : Nat), (c, p) ∈ buildParentMapFrom k arena ↔
      ∃ j n, p = k + j ∧ arena[j]? = some n ∧ c ∈ n.children := by
  intro arena
  induction arena with
  | nil =>
    intro k
    simp [buildParentMapFrom]
  | cons n rest ih =>
    intro k
    rw [buildParentMapFrom]
    constructor
    · intro h
      rcases List.mem_append.1 h with h | h
      · obtain ⟨c0, hc0, heq⟩ := List.mem_map.1 h
        obtain ⟨h1, h2⟩ := Prod.mk.injEq .. ▸ heq
        exact ⟨0, n, by omega, by simp, h1 ▸ hc0⟩
      · obtain ⟨j, n0, hp, hg, hc⟩ := (ih (k + 1)).1 h
        exact ⟨j + 1, n0, by omega, by simpa using hg, hc⟩
    · rintro ⟨j, n0, hp, hg, hc⟩
      cases j with
      | zero =>
        apply List.mem_append.2
        left
        simp only [List.getElem?_cons_zero, Option.some.injEq] at hg
        refine List.mem_map.2 ⟨c, hg ▸ hc, ?_⟩
        simp [hp]
      | succ j =>
        apply List.mem_append.2
        right
        refine (ih (k + 1)).2 ⟨j, n0, by omega, by simpa using hg, hc⟩

/-- A successful parent lookup comes from a recorded pair. -/
theorem lookupParent_eq_some_mem (m : List (Nat × Nat)) (c p : Nat)
    (h : lookupParent m c = some p) : (c, p) ∈ m := by
  unfold lookupParent at h
  cases hf : m.find? (fun e => e.1 == c) with
  | none => rw [hf] at h; cases h
  | some e =>
    rw [hf] at h
    injection h with h
    have hmem := List.mem_of_find?_eq_some hf
    have hkey := List.find?_some hf
    simp only [beq_iff_eq] at hkey
    have : e = (c, p) := by
      cases e
      simp_all
    exact this ▸ hmem

/-- A recorded key always yields some parent on lookup. -/
theorem lookupParent_isSome (m : List (Nat × Nat)) (c p : Nat)
    (h : (c, p) ∈ m) : ∃ q, lookupParent m c = some q := by
  unfold lookupParent
  have : (m.find? (fun e => e.1 == c)).isSome := by
    rw [List.find?_isSome]
    exact ⟨(c, p), h, by simp⟩
  obtain ⟨e, he⟩ := Option.isSome_iff_exists.1 this
  exact ⟨e.2, by rw [he]; rfl⟩

/-- C4: on a tree whose marker-start node named x (as located by the
document-order search) has a next sibling right after it among its parent's
children, populate_bookmark retags that sibling to the span element type and
sets its direct text to the contents, leaving the sibling's attributes,
tail and children untouched, every other node unchanged, the node count
unchanged, and the parent index unchanged. -/
theorem c4_populate_bookmark_frame
    (st : Helper) (x contents : String) (bs pid i sid : Nat) (pnode snode : Node)
    (hfind : findBookmarkStart st x = some bs)
    (hpar : lookupParent st.parentMap bs = some pid)
    (hpn : st.arena[pid]? = some pnode)
    (hidx : breakIdx bs 0 pnode.children = some i)
    (_hbs : pnode.children[i]? = some bs)
    (hsib : pnode.children[i + 1]? = some sid)
    (hsn : st.arena[sid]? = some snode) :
    ∃ st2, populate_bookmark st x contents = .ok st2 ∧
      st2.arena[sid]? = some { snode with tag := "text:span", text := some contents } ∧
      (∀ j, j ≠ sid → st2.arena[j]? = st.arena[j]?) ∧
      st2.arena.length = st.arena.length ∧
      st2.parentMap = st.parentMap ∧
      st2.rootId = st.rootId := by
  have hspec := populate_ok_spec st x contents bs pid i sid pnode snode
    hfind hpar hpn hidx hsib hsn
  have hsidlt : sid < st.arena.length := (List.getElem?_eq_some.1 hsn).1
  refine ⟨_, hspec, ?_, ?_, ?_, rfl, rfl⟩
  · simp [List.getElem?_set, hsidlt]
  · intro j hj
    simp [List.getElem?_set, Ne.symm hj]
  · simp

/-- C4 witness: a concrete document whose marker named X is followed by an
empty placeholder element. -/
theorem c4_populate_bookmark_frame_witness :
    ∃ st2, populate_bookmark
        { arena :=
            [⟨"office:document-content", [], none, none, [1]⟩,
             ⟨pQualifiedTag, [("style", "Standard")], none, none, [2, 3, 4]⟩,
             ⟨bookmarkStartTag, [(nameAttr, "X")], none, none, []⟩,
             ⟨"text:s", [], none, none, []⟩,
             ⟨"bookmark-end", [], none, none, []⟩],
          rootId := 0,
          parentMap := buildParentMap
            [⟨"office:document-content", [], none, none, [1]⟩,
             ⟨pQualifiedTag, [("style", "Standard")], none, none, [2, 3, 4]⟩,
             ⟨bookmarkStartTag, [(nameAttr, "X")], none, none, []⟩,
             ⟨"text:s", [], none, none, []⟩,
             ⟨"bookmark-end", [], none, none, []⟩] } "X" "hello" = .ok st2 ∧
      st2.arena[3]? = some ⟨"text:span", [], some "hello", none, []⟩ ∧
      (∀ j, j ≠ 3 → st2.arena[j]? =
        ([⟨"office:document-content", [], none, none, [1]⟩,
          ⟨pQualifiedTag, [("style", "Standard")], none, none, [2, 3, 4]⟩,
          ⟨bookmarkStartTag, [(nameAttr, "X")], none, none, []⟩,
          ⟨"text:s", [], none, none, []⟩,
          ⟨"bookmark-end", [], none, none, []⟩] : List Node)[j]?) ∧
      st2.arena.length = 5 ∧
      st2.parentMap = buildParentMap
        [⟨"office:document-content", [], none, none, [1]⟩,
         ⟨pQualifiedTag, [("style", "Standard")], none, none, [2, 3, 4]⟩,
         ⟨bookmarkStartTag, [(nameAttr, "X")], none, none, []⟩,
         ⟨"text:s", [], none, none, []⟩,
         ⟨"bookmark-end", [], none, none, []⟩] ∧
      st2.rootId = 0 :=
  c4_populate_bookmark_frame _ "X" "hello" 2 1 0 3
    ⟨pQualifiedTag, [("style", "Standard")], none, none, [2, 3, 4]⟩
    ⟨"text:s", [], none, none, []⟩
    rfl rfl rfl rfl rfl rfl rfl

/-- C6: on a tree holding no marker-start node with the given name,
populate_bookmark fails with the marker-not-found error; the error
propagates before any mutation, so the tree is left unmodified. -/
theorem c6_missing_marker_error (st : Helper) (name contents : String)
    (habs : ∀ n ∈ st.arena, isBookmarkStart name n = false) :
    populate_bookmark st name contents = .error .markerNotFound := by
  have hfind : findBookmarkStart st name = none := by
    unfold findBookmarkStart
    cases hr : st.arena[st.rootId]? with
    | none => rfl
    | some r =>
      show dfs st.arena (isBookmarkStart name)
        (st.arena.length * st.arena.length + 1) r.children = none
      cases hd : dfs st.arena (isBookmarkStart name)
          (st.arena.length * st.arena.length + 1) r.children with
      | none => rfl
      | some i =>
        exfalso
        obtain ⟨n, hn, hp⟩ := dfs_some _ _ _ _ _ hd
        rw [habs n (List.getElem?_mem hn)] at hp
        cases hp
  simp only [populate_bookmark, hfind]

/-- C6 witness: the document holds a marker named X but none named Z. -/
theorem c6_missing_marker_error_witness :
    populate_bookmark
      { arena :=
          [⟨"office:document-content", [], none, none, [1]⟩,
           ⟨pQualifiedTag, [("style", "Standard")], none, none, [2, 3, 4]⟩,
           ⟨bookmarkStartTag, [(nameAttr, "X")], none, none, []⟩,
           ⟨"text:s", [], none, none, []⟩,
           ⟨"bookmark-end", [], none, none, []⟩],
        rootId := 0,
        parentMap := buildParentMap
          [⟨"office:document-content", [], none, none, [1]⟩,
           ⟨pQualifiedTag, [("style", "Standard")], none, none, [2, 3, 4]⟩,
           ⟨bookmarkStartTag, [(nameAttr, "X")], none, none, []⟩,
           ⟨"text:s", [], none, none, []⟩,
           ⟨"bookmark-end", [], none, none, []⟩] } "Z" "hello" =
      .error .markerNotFound :=
  c6_missing_marker_error _ "Z" "hello" (by decide)

/-- C7: when the marker-start node located for the given name is the last
child of its parent, populate_bookmark fails with the missing-sibling
error. -/
theorem c7_marker_last_child_error (st : Helper) (x contents : String) (bs pid : Nat)
    (pnode : Node) (cs : List Nat)
    (hfind : findBookmarkStart st x = some bs)
    (hpar : lookupParent st.parentMap bs = some pid)
    (hpn : st.arena[pid]? = some pnode)
    (hchild : pnode.children = cs ++ [bs])
    (hnotin : bs ∉ cs) :
    populate_bookmark st x contents = .error .missingSibling := by
  have hidx : breakIdx bs 0 pnode.children = some cs.length := by
    rw [hchild]
    simpa using breakIdx_last bs cs hnotin 0
  have hsib : pnode.children[cs.length + 1]? = none := by
    rw [hchild]
    apply List.getElem?_eq_none
    simp
  simp only [populate_bookmark, hfind, hpar, hpn, hidx, hsib]

/-- C7 witness: the marker named X is the last child of its paragraph. -/
theorem c7_marker_last_child_error_witness :
    populate_bookmark
      { arena :=
          [⟨"office:document-content", [], none, none, [1]⟩,
           ⟨pQualifiedTag, [("style", "Standard")], none, none, [2]⟩,
           ⟨bookmarkStartTag, [(nameAttr, "X")], none, none, []⟩],
        rootId := 0,
        parentMap := buildParentMap
          [⟨"office:document-content", [], none, none, [1]⟩,
           ⟨pQualifiedTag, [("style", "Standard")], none, none, [2]⟩,
           ⟨bookmarkStartTag, [(nameAttr, "X")], none, none, []⟩] } "X" "hello" =
      .error .missingSibling :=
  c7_marker_last_child_error _ "X" "hello" 2 1
    ⟨pQualifiedTag, [("style", "Standard")], none, none, [2]⟩ []
    rfl rfl rfl rfl (by decide)

/-- C5 counterexample: the paragraph insertion does not give the new node
the same tag as the parsed reference paragraph: the reference carries the
namespace-expanded paragraph tag while the new node carries the literal
prefixed string text:p. -/
theorem c5_counterexample :
    ∃ st2, insertParagraphAfter
        { arena := [⟨"office:text", [], none, none, [1]⟩,
                    ⟨pQualifiedTag, [("style", "Standard")], none, none, []⟩],
          rootId := 0,
          parentMap := buildParentMap
            [⟨"office:text", [], none, none, [1]⟩,
             ⟨pQualifiedTag, [("style", "Standard")], none, none, []⟩] }
        1 [("style", "Standard")] "new text" = .ok st2 ∧
      (st2.arena[2]?).map Node.tag = some "text:p" ∧
      (st2.arena[1]?).map Node.tag = some pQualifiedTag ∧
      ("text:p" : String) ≠ pQualifiedTag := by
  refine ⟨_, rfl, rfl, rfl, by decide⟩

/-- C5 (amended): for every reference node with a recorded parent, the
insertion creates a new node with the literal prefixed tag text:p (not the
reference paragraph's namespace-expanded tag, though both serialize to the
same qualified name), whose attribute mapping equals the attribute-source
mapping and whose direct text is the given string, inserted immediately
after the reference node in the parent's child sequence, leaving the
reference node and the other siblings (and their positions around the
insertion point) unchanged. -/
theorem c5_insert_paragraph_after (st : Helper) (refId pid i : Nat) (pnode : Node)
    (src : List (String × String)) (txt : String)
    (hpar : lookupParent st.parentMap refId = some pid)
    (hpn : st.arena[pid]? = some pnode)
    (hidx : breakIdx refId 0 pnode.children = some i)
    (href : pnode.children[i]? = some refId) :
    ∃ st2, insertParagraphAfter st refId src txt = .ok st2 ∧
      st2.arena[st.arena.length]? = some ⟨"text:p", src, some txt, none, []⟩ ∧
      st2.arena[pid]? = some { pnode with
        children :=
          pnode.children.take (i + 1) ++ st.arena.length :: pnode.children.drop (i + 1) } ∧
      (∀ j, j ≠ pid → j < st.arena.length → st2.arena[j]? = st.arena[j]?) ∧
      st2.arena.length = st.arena.length + 1 ∧
      st2.parentMap = st.parentMap ∧
      st2.rootId = st.rootId := by
  have hspec := insert_ok_spec st refId src txt pid i pnode hpar hpn hidx
  have hplt : pid < st.arena.length := (List.getElem?_eq_some.1 hpn).1
  have hilt : i < pnode.children.length := (List.getElem?_eq_some.1 href).1
  have hpy : pyInsert (i + 1) st.arena.length pnode.children =
      pnode.children.take (i + 1) ++ st.arena.length :: pnode.children.drop (i + 1) :=
    pyInsert_eq_take_drop st.arena.length (i + 1) pnode.children hilt
  refine ⟨_, hspec, ?_, ?_, ?_, ?_, rfl, rfl⟩
  · simp [List.getElem?_append, List.length_set]
  · simp [List.getElem?_append, List.length_set, hplt, List.getElem?_set, hpy]
  · intro j hj hjlt
    simp [List.getElem?_append, List.length_set, hjlt, List.getElem?_set, Ne.symm hj]
  · simp

/-- C5 witness: inserting after a paragraph with a style attribute. -/
theorem c5_insert_paragraph_after_witness :
    ∃ st2, insertParagraphAfter
        { arena := [⟨"office:text", [], none, none, [1]⟩,
                    ⟨pQualifiedTag, [("style", "Standard")], none, none, []⟩],
          rootId := 0,
          parentMap := buildParentMap
            [⟨"office:text", [], none, none, [1]⟩,
             ⟨pQualifiedTag, [("style", "Standard")], none, none, []⟩] }
        1 [("style", "Standard")] "new text" = .ok st2 ∧
      st2.arena[2]? = some ⟨"text:p", [("style", "Standard")], some "new text", none, []⟩ ∧
      st2.arena[0]? = some ⟨"office:text", [], none, none, [1, 2]⟩ ∧
      (∀ j, j ≠ 0 → j < 2 → st2.arena[j]? =
        ([⟨"office:text", [], none, none, [1]⟩,
          ⟨pQualifiedTag, [("style", "Standard")], none, none, []⟩] : List Node)[j]?) ∧
      st2.arena.length = 3 ∧
      st2.parentMap = buildParentMap
        [⟨"office:text", [], none, none, [1]⟩,
         ⟨pQualifiedTag, [("style", "Standard")], none, none, []⟩] ∧
      st2.rootId = 0 :=
  c5_insert_paragraph_after
    { arena := [⟨"office:text", [], none, none, [1]⟩,
                ⟨pQualifiedTag, [("style", "Standard")], none, none, []⟩],
      rootId := 0,
      parentMap := buildParentMap
        [⟨"office:text", [], none, none, [1]⟩,
         ⟨pQualifiedTag, [("style", "Standard")], none, none, []⟩] }
    1 0 0 ⟨"office:text", [], none, none, [1]⟩
    [("style", "Standard")] "new text" rfl rfl rfl rfl

/-- C8: the parent index built at load records, for every direct child of a
node of the parsed arena (parents being unique), that parent; the insertion
leaves the index untouched, and a lookup of the freshly inserted node's
identity in it fails. -/
theorem c8_parent_index_static (st st2 : Helper) (refId : Nat)
    (src : List (String × String)) (txt : String)
    (hmap : st.parentMap = buildParentMap st.arena)
    (huniq : ∀ (c p1 p2 : Nat) (n1 n2 : Node),
      st.arena[p1]? = some n1 → st.arena[p2]? = some n2 →
      c ∈ n1.children → c ∈ n2.children → p1 = p2)
    (hbound : ∀ n ∈ st.arena, ∀ c ∈ n.children, c < st.arena.length)
    (hins : insertParagraphAfter st refId src txt = .ok st2) :
    (∀ c p n, st.arena[p]? = some n → c ∈ n.children →
      lookupParent st.parentMap c = some p) ∧
    st2.parentMap = st.parentMap ∧
    lookupParent st2.parentMap st.arena.length = none := by
  have hpm2 : st2.parentMap = st.parentMap := by
    unfold insertParagraphAfter at hins
    cases h1 : lookupParent st.parentMap refId with
    | none => rw [h1] at hins; cases hins
    | some pid =>
      rw [h1] at hins
      cases h2 : st.arena[pid]? with
      | none => simp only [h2] at hins; cases hins
      | some pnode =>
        simp only [h2] at hins
        cases h3 : breakIdx refId 0 pnode.children with
        | none => simp only [h3] at hins; cases hins
        | some i =>
          simp only [h3] at hins
          injection hins with hins
          rw [← hins]
  have hnolen : lookupParent st.parentMap st.arena.length = none := by
    cases hl : lookupParent st.parentMap st.arena.length with
    | none => rfl
    | some q =>
      exfalso
      have hqmem := lookupParent_eq_some_mem _ _ _ hl
      rw [hmap] at hqmem
      obtain ⟨j, n, _, hg, hc⟩ := (mem_buildParentMapFrom _ _ st.arena 0).1 hqmem
      have := hbound n (List.getElem?_mem hg) st.arena.length hc
      omega
  refine ⟨?_, hpm2, by rw [hpm2]; exact hnolen⟩
  intro c p n hp hc
  have hmem : (c, p) ∈ buildParentMap st.arena :=
    (mem_buildParentMapFrom c p st.arena 0).2 ⟨p, n, by omega, hp, hc⟩
  obtain ⟨q, hq⟩ := lookupParent_isSome _ c p (hmap ▸ hmem)
  have hqmem := lookupParent_eq_some_mem _ _ _ hq
  rw [hmap] at hqmem
  obtain ⟨j, n2, hpq, hg2, hc2⟩ := (mem_buildParentMapFrom c q st.arena 0).1 hqmem
  have hjq : j = q := by omega
  rw [hjq] at hg2
  have hquse : q = p := huniq c q p n2 n hg2 hp hc2 hc
  rw [hq, hquse]

/-- C8 witness: after a concrete insertion the old parent index is kept and
does not know the new node's identity. -/
theorem c8_parent_index_static_witness :
    (∀ c p n,
      ([⟨"office:text", [], none, none, [1]⟩,
        ⟨pQualifiedTag, [("style", "Standard")], none, none, []⟩] : List Node)[p]? = some n →
      c ∈ n.children →
      lookupParent (buildParentMap
        [⟨"office:text", [], none, none, [1]⟩,
         ⟨pQualifiedTag, [("style", "Standard")], none, none, []⟩]) c = some p) ∧
    ({ arena := [⟨"office:text", [], none, none, [1, 2]⟩,
                 ⟨pQualifiedTag, [("style", "Standard")], none, none, []⟩,
                 ⟨"text:p", [("style", "Standard")], some "new text", none, []⟩],
       rootId := 0,
       parentMap := buildParentMap
         [⟨"office:text", [], none, none, [1]⟩,
          ⟨pQualifiedTag, [("style", "Standard")], none, none, []⟩] } : Helper).parentMap =
      ({ arena := [⟨"office:text", [], none, none, [1]⟩,
                   ⟨pQualifiedTag, [("style", "Standard")], none, none, []⟩],
         rootId := 0,
         parentMap := buildParentMap
           [⟨"office:text", [], none, none, [1]⟩,
            ⟨pQualifiedTag, [("style", "Standard")], none, none, []⟩] } : Helper).parentMap ∧
    lookupParent
      ({ arena := [⟨"office:text", [], none, none, [1, 2]⟩,
                   ⟨pQualifiedTag, [("style", "Standard")], none, none, []⟩,
                   ⟨"text:p", [("style", "Standard")], some "new text", none, []⟩],
         rootId := 0,
         parentMap := buildParentMap
           [⟨"office:text", [], none, none, [1]⟩,
            ⟨pQualifiedTag, [("style", "Standard")], none, none, []⟩] } : Helper).parentMap
      2 = none :=
  c8_parent_index_static
    { arena := [⟨"office:text", [], none, none, [1]⟩,
                ⟨pQualifiedTag, [("style", "Standard")], none, none, []⟩],
      rootId := 0,
      parentMap := buildParentMap
        [⟨"office:text", [], none, none, [1]⟩,
         ⟨pQualifiedTag, [("style", "Standard")], none, none, []⟩] }
    { arena := [⟨"office:text", [], none, none, [1, 2]⟩,
                ⟨pQualifiedTag, [("style", "Standard")], none, none, []⟩,
                ⟨"text:p", [("style", "Standard")], some "new text", none, []⟩],
      rootId := 0,
      parentMap := buildParentMap
        [⟨"office:text", [], none, none, [1]⟩,
         ⟨pQualifiedTag, [("style", "Standard")], none, none, []⟩] }
    1 [("style", "Standard")] "new text" rfl
    (by
      intro c p1 p2 n1 n2 h1 h2 hc1 hc2
      have hp1 : p1 < 2 := by simpa using (List.getElem?_eq_some.1 h1).1
      have hp2 : p2 < 2 := by simpa using (List.getElem?_eq_some.1 h2).1
      interval_cases p1 <;> interval_cases p2 <;>
        simp only [List.getElem?_cons_zero, List.getElem?_cons_succ,
          Option.some.injEq] at h1 h2 <;>
        subst h1 <;> subst h2 <;> simp_all)
    (by decide) rfl

/-- C10: after a successful populate_bookmark the retagged sibling carries
the literal prefixed tag text:span, and the node created by the paragraph
insertion carries the literal tag text:p, neither being the
namespace-expanded form every parsed node carries; hence a depth-first
search for the namespace-expanded span (resp. paragraph) tag over the
mutated tree never returns the mutated (resp. inserted) node's identity,
at any fuel and over any id list. -/
theorem c10_literal_prefixed_tags
    (st : Helper) (x contents : String) (bs pid i sid : Nat) (pnode snode : Node)
    (hfind : findBookmarkStart st x = some bs)
    (hpar : lookupParent st.parentMap bs = some pid)
    (hpn : st.arena[pid]? = some pnode)
    (hidx : breakIdx bs 0 pnode.children = some i)
    (hsib : pnode.children[i + 1]? = some sid)
    (hsn : st.arena[sid]? = some snode)
    (st9 : Helper) (refId qid j : Nat) (qnode : Node)
    (src : List (String × String)) (txt : String)
    (hpar2 : lookupParent st9.parentMap refId = some qid)
    (hqn : st9.arena[qid]? = some qnode)
    (hidx2 : breakIdx refId 0 qnode.children = some j) :
    (∃ st2, populate_bookmark st x contents = .ok st2 ∧
      (st2.arena[sid]?).map Node.tag = some "text:span" ∧
      ("text:span" : String) ≠ spanQualifiedTag ∧
      (∀ fuel ids, dfs st2.arena (fun n => n.tag == spanQualifiedTag) fuel ids ≠
        some sid)) ∧
    (∃ st3, insertParagraphAfter st9 refId src txt = .ok st3 ∧
      (st3.arena[st9.arena.length]?).map Node.tag = some "text:p" ∧
      ("text:p" : String) ≠ pQualifiedTag ∧
      (∀ fuel ids, dfs st3.arena (fun n => n.tag == pQualifiedTag) fuel ids ≠
        some (st9.arena.length))) := by
  have hspec := populate_ok_spec st x contents bs pid i sid pnode snode
    hfind hpar hpn hidx hsib hsn
  have hsidlt : sid < st.arena.length := (List.getElem?_eq_some.1 hsn).1
  have hspec2 := insert_ok_spec st9 refId src txt qid j qnode hpar2 hqn hidx2
  have hsget : (st.arena.set sid
      { snode with tag := "text:span", text := some contents })[sid]? =
      some { snode with tag := "text:span", text := some contents } := by
    simp [List.getElem?_set, hsidlt]
  have hnget : ((st9.arena.set qid
      { qnode with children := pyInsert (j + 1) st9.arena.length qnode.children }) ++
      [⟨"text:p", src, some txt, none, []⟩])[st9.arena.length]? =
      some ⟨"text:p", src, some txt, none, []⟩ := by
    simp [List.getElem?_append, List.length_set]
  constructor
  · refine ⟨_, hspec, ?_, by decide, ?_⟩
    · rw [hsget]
      rfl
    · intro fuel ids h
      obtain ⟨n, hn, hp⟩ := dfs_some _ _ _ _ _ h
      rw [hsget] at hn
      injection hn with hn
      rw [← hn] at hp
      simp only [beq_iff_eq] at hp
      exact absurd hp (by decide)
  · refine ⟨_, hspec2, ?_, by decide, ?_⟩
    · rw [hnget]
      rfl
    · intro fuel ids h
      obtain ⟨n, hn, hp⟩ := dfs_some _ _ _ _ _ h
      rw [hnget] at hn
      injection hn with hn
      rw [← hn] at hp
      simp only [beq_iff_eq] at hp
      exact absurd hp (by decide)

/-- C10 witness: both halves at concrete documents: the retagged sibling
and the inserted paragraph carry literal prefixed tags that the
namespace-qualified searches do not match. -/
theorem c10_literal_prefixed_tags_witness :
    (∃ st2, populate_bookmark
        { arena :=
            [⟨"office:document-content", [], none, none, [1]⟩,
             ⟨pQualifiedTag, [("style", "Standard")], none, none, [2, 3, 4]⟩,
             ⟨bookmarkStartTag, [(nameAttr, "Y")], none, none, []⟩,
             ⟨spanQualifiedTag, [], none, none, []⟩,
             ⟨"bookmark-end", [], none, none, []⟩],
          rootId := 0,
          parentMap := buildParentMap
            [⟨"office:document-content", [], none, none, [1]⟩,
             ⟨pQualifiedTag, [("style", "Standard")], none, none, [2, 3, 4]⟩,
             ⟨bookmarkStartTag, [(nameAttr, "Y")], none, none, []⟩,
             ⟨spanQualifiedTag, [], none, none, []⟩,
             ⟨"bookmark-end", [], none, none, []⟩] } "Y" "hi" = .ok st2 ∧
      (st2.arena[3]?).map Node.tag = some "text:span" ∧
      ("text:span" : String) ≠ spanQualifiedTag ∧
      (∀ fuel ids, dfs st2.arena (fun n => n.tag == spanQualifiedTag) fuel ids ≠
        some 3)) ∧
    (∃ st3, insertParagraphAfter
        { arena := [⟨"office:text", [], none, none, [1]⟩,
                    ⟨pQualifiedTag, [("style", "Main")], none, none, []⟩],
          rootId := 0,
          parentMap := buildParentMap
            [⟨"office:text", [], none, none, [1]⟩,
             ⟨pQualifiedTag, [("style", "Main")], none, none, []⟩] }
        1 [("style", "Main")] "anything" = .ok st3 ∧
      (st3.arena[2]?).map Node.tag = some "text:p" ∧
      ("text:p" : String) ≠ pQualifiedTag ∧
      (∀ fuel ids, dfs st3.arena (fun n => n.tag == pQualifiedTag) fuel ids ≠
        some 2)) :=
  c10_literal_prefixed_tags
    { arena :=
        [⟨"office:document-content", [], none, none, [1]⟩,
         ⟨pQualifiedTag, [("style", "Standard")], none, none, [2, 3, 4]⟩,
         ⟨bookmarkStartTag, [(nameAttr, "Y")], none, none, []⟩,
         ⟨spanQualifiedTag, [], none, none, []⟩,
         ⟨"bookmark-end", [], none, none, []⟩],
      rootId := 0,
      parentMap := buildParentMap
        [⟨"office:document-content", [], none, none, [1]⟩,
         ⟨pQualifiedTag, [("style", "Standard")], none, none, [2, 3, 4]⟩,
         ⟨bookmarkStartTag, [(nameAttr, "Y")], none, none, []⟩,
         ⟨spanQualifiedTag, [], none, none, []⟩,
         ⟨"bookmark-end", [], none, none, []⟩] } "Y" "hi" 2 1 0 3
    ⟨pQualifiedTag, [("style", "Standard")], none, none, [2, 3, 4]⟩
    ⟨spanQualifiedTag, [], none, none, []⟩
    rfl rfl rfl rfl rfl rfl
    { arena := [⟨"office:text", [], none, none, [1]⟩,
                ⟨pQualifiedTag, [("style", "Main")], none, none, []⟩],
      rootId := 0,
      parentMap := buildParentMap
        [⟨"office:text", [], none, none, [1]⟩,
         ⟨pQualifiedTag, [("style", "Main")], none, none, []⟩] }
    1 0 0 ⟨"office:text", [], none, none, [1]⟩
    [("style", "Main")] "anything" rfl rfl rfl

end Odt
